import Mathlib

/-!
Shallow embedding of the chess-demo repository
(`src/src/App.tsx` — two app variants — `src/src/components/Board.tsx`
section, and the type declarations of `src/unnamed/part_000`).

The first ("grid") variant stores the board as an 8×8 grid of nullable
piece tags; the second ("string") variant stores a placeholder FEN-like
string.  Pure functions of the source become Lean functions; the React
state updates become explicit state-passing functions; the single
`Math.random()` draw of the AI is modelled as an explicit rational
input `r` with `0 ≤ r < 1` (the index chosen is `⌊r * n⌋`, exactly as
`Math.floor(Math.random() * n)` computes it).
-/

namespace ChessDemo

/-- Piece colors `'w' | 'b'` (the first character of a piece tag). -/
inductive Color where
  | w
  | b
deriving DecidableEq, Repr

/-- Piece kinds: the second character of a tag such as `'wP'` or `'bK'`. -/
inductive PieceType where
  | P
  | N
  | B
  | R
  | Q
  | K
deriving DecidableEq, Repr

/-- `type Piece = 'wP' | … | 'bK' | null` from `src/unnamed/part_000`:
a tag is a color paired with a piece kind, and `null` is `none`. -/
abbrev Piece := Option (Color × PieceType)

/-- `type BoardState = Piece[][]` from `src/unnamed/part_000`. -/
abbrev BoardState := List (List Piece)

/-- A `{row, col}` square reference as used by the `Move` interface. -/
structure Coord where
  row : Nat
  col : Nat
deriving DecidableEq, Repr

/-- The `Move` interface of `src/unnamed/part_000`
(`from` is a Lean keyword, hence the field names `fromSq`/`toSq`). -/
structure Move where
  fromSq : Coord
  toSq : Coord
  piece : Piece
deriving DecidableEq, Repr

/-- `type GameMode = 'local' | 'ai' | 'multiplayer'` (grid variant). -/
inductive GameMode where
  | local
  | ai
  | multiplayer
deriving DecidableEq, Repr

/-- `type Difficulty = 'Beginner' | 'Easy' | 'Hard' | 'Master'`. -/
inductive Difficulty where
  | Beginner
  | Easy
  | Hard
  | Master
deriving DecidableEq, Repr

/-- `getPieceColor` of `App.tsx` / `Board.tsx`:
`piece ? piece[0] : null`. -/
def getPieceColor (piece : Piece) : Option Color :=
  piece.map Prod.fst

/-- Reading `board[r][c]`.  Out-of-range JS access yields `undefined`,
which every consumer in the source treats exactly like `null`
(`getPieceColor(undefined)` is `null`), so the default is `none`. -/
def getSquare (board : BoardState) (r c : Nat) : Piece :=
  (board.getD r []).getD c none

/-- Writing `board[r][c] = p` on a value copy of the board.
`List.set` is a no-op out of range; every claim about board writes is
stated for in-range coordinates, matching the JS code that only ever
writes in-range squares. -/
def setSquare (board : BoardState) (r c : Nat) (p : Piece) : BoardState :=
  board.set r ((board.getD r []).set c p)

/-- The inner two loops of `generateAIMove` (`App.tsx` lines 28–35) for
a fixed source square `(r, c)`: every target `(tr, tc)` with
`(r !== tr || c !== tc)` and `getPieceColor(board[tr][tc]) !== 'b'`,
pushed in row-major target order. -/
def movesFrom (board : BoardState) (r c : Nat) : List Move :=
  (List.range 8).flatMap fun tr =>
    (List.range 8).flatMap fun tc =>
      if (r ≠ tr ∨ c ≠ tc) ∧ getPieceColor (getSquare board tr tc) ≠ some Color.b then
        [⟨⟨r, c⟩, ⟨tr, tc⟩, getSquare board r c⟩]
      else []

/-- The `allPossibleMoves` array built by `generateAIMove`
(`App.tsx` lines 21–38): for each square in row-major order holding a
`'b'`-colored piece, all its `movesFrom` targets. -/
def generateAIMoveList (board : BoardState) : List Move :=
  (List.range 8).flatMap fun r =>
    (List.range 8).flatMap fun c =>
      if getPieceColor (getSquare board r c) = some Color.b then
        movesFrom board r c
      else []

/-- `generateAIMove` (`App.tsx` lines 12–45).  The `Math.random()` draw
is the explicit input `r`; `Math.floor(Math.random() * n)` becomes
`(⌊r * n⌋).toNat`, and the in-range array read `allPossibleMoves[index]`
becomes `List.get?` (in range for every `r ∈ [0,1)`).  The
`complexityFactor` is computed as in the source and, as in the source,
never used afterwards. -/
def generateAIMove (board : BoardState) (difficulty : Difficulty) (r : ℚ) :
    Option Move :=
  let complexityFactor : Nat :=
    match difficulty with
    | .Easy => 1
    | .Hard => 2
    | .Master => 3
    | .Beginner => 1
  let allPossibleMoves := generateAIMoveList board
  if allPossibleMoves.length = 0 then none
  else allPossibleMoves.get? (⌊r * (allPossibleMoves.length : ℚ)⌋).toNat

/-- `executeMove`'s board update (`App.tsx` lines 78–83): copy the
board (a value-level identity here), write `move.piece` at the target,
then write `null` at the source. -/
def executeMove (board : BoardState) (move : Move) : BoardState :=
  setSquare (setSquare board move.toSq.row move.toSq.col move.piece)
    move.fromSq.row move.fromSq.col none

/-- `INITIAL_BOARD` of `Board.tsx` (lines 895–904). -/
def INITIAL_BOARD : BoardState :=
  [[some (.b, .R), some (.b, .N), some (.b, .B), some (.b, .Q),
    some (.b, .K), some (.b, .B), some (.b, .N), some (.b, .R)],
   [some (.b, .P), some (.b, .P), some (.b, .P), some (.b, .P),
    some (.b, .P), some (.b, .P), some (.b, .P), some (.b, .P)],
   [none, none, none, none, none, none, none, none],
   [none, none, none, none, none, none, none, none],
   [none, none, none, none, none, none, none, none],
   [none, none, none, none, none, none, none, none],
   [some (.w, .P), some (.w, .P), some (.w, .P), some (.w, .P),
    some (.w, .P), some (.w, .P), some (.w, .P), some (.w, .P)],
   [some (.w, .R), some (.w, .N), some (.w, .B), some (.w, .Q),
    some (.w, .K), some (.w, .B), some (.w, .N), some (.w, .R)]]

/-- `isValidMovePlaceholder` of `Board.tsx` (lines 910–919). -/
def isValidMovePlaceholder (board : BoardState) (fromSq toSq : Coord)
    (piece : Piece) (currentPlayer : Color) : Bool :=
  if piece = none ∨ getPieceColor piece ≠ some currentPlayer then false
  else if toSq.row = fromSq.row ∧ toSq.col = fromSq.col then false
  else if getPieceColor (getSquare board toSq.row toSq.col) = some currentPlayer then false
  else true

/-- The position of a move in the row-major enumeration order of
`generateAIMove`: source square first (row-major), then target square
(row-major).  The enumeration is strictly increasing in this key. -/
def moveKey (m : Move) : Nat :=
  (m.fromSq.row * 8 + m.fromSq.col) * 64 + (m.toSq.row * 8 + m.toSq.col)

/-- An 8×8 board: 8 rows, each of 8 entries. -/
def is8x8 (board : BoardState) : Prop :=
  board.length = 8 ∧ ∀ row ∈ board, row.length = 8

instance (board : BoardState) : Decidable (is8x8 board) := by
  unfold is8x8; infer_instance

/-- Boards reachable in the grid variant from `INITIAL_BOARD` by
`executeMove` steps with in-range move coordinates. -/
inductive ReachableBoard : BoardState → Prop where
  | init : ReachableBoard INITIAL_BOARD
  | step (b : BoardState) (m : Move) :
      m.fromSq.row < 8 → m.fromSq.col < 8 → m.toSq.row < 8 → m.toSq.col < 8 →
      ReachableBoard b → ReachableBoard (executeMove b m)

/-- The grid-variant `App` component's state: game mode, board, player
to move, selected square, and status message (`App.tsx` lines 50–55). -/
structure AppState where
  mode : GameMode
  board : BoardState
  currentPlayer : Color
  selectedSquare : Option Coord
  statusMessage : String
deriving DecidableEq, Repr

/-- The `'White'` / `'Black'` fragment of the template strings. -/
def colorName (c : Color) : String :=
  if c = Color.w then "White" else "Black"

/-- `executeMove` of the grid `App` (`App.tsx` lines 77–97) as a state
transformer: update the board, switch the turn, clear the selection,
and set the mode-dependent status message. -/
def executeMoveApp (st : AppState) (move : Move) (player : Color) : AppState :=
  let newBoard := executeMove st.board move
  let nextPlayer := if player = Color.w then Color.b else Color.w
  let msg :=
    if st.mode = GameMode.local then colorName nextPlayer ++ " to move."
    else if st.mode = GameMode.ai ∧ nextPlayer = Color.w then "Your Turn (White)"
    else if st.mode = GameMode.ai ∧ nextPlayer = Color.b then "AI Thinking..."
    else st.statusMessage
  { st with
    board := newBoard
    currentPlayer := nextPlayer
    selectedSquare := none
    statusMessage := msg }

/-- The rejection message of `handleHumanMove` (`App.tsx` line 104). -/
def errorOpponentPiece : String := "Error: Cannot move opponent's piece."

/-- `handleHumanMove` (`App.tsx` lines 100–109): reject when the moved
piece is not the current player's (null included), otherwise call
`executeMove` with no further validation. -/
def handleHumanMove (st : AppState) (move : Move) : AppState :=
  let pieceColor := getPieceColor move.piece
  if pieceColor ≠ some st.currentPlayer then
    { st with statusMessage := errorOpponentPiece }
  else executeMoveApp st move st.currentPlayer

/-- Modelled from the spec: the glossary's **pseudo-legal move** — "a
move obeying piece movement shape".  No such check exists anywhere in
the source; this renders the standard movement shapes the glossary and
claim C3 appeal to (knight jump, bishop diagonal, rook line, queen
either, king single step, pawn single/double advance or diagonal
capture, pawns moving down the grid for Black and up for White as in
`INITIAL_BOARD`). -/
def obeysMovementShape (m : Move) : Bool :=
  let dr : Int := (m.toSq.row : Int) - (m.fromSq.row : Int)
  let dc : Int := (m.toSq.col : Int) - (m.fromSq.col : Int)
  match m.piece with
  | none => false
  | some (c, t) =>
    match t with
    | .N => (dr.natAbs = 1 ∧ dc.natAbs = 2) ∨ (dr.natAbs = 2 ∧ dc.natAbs = 1)
    | .B => dr.natAbs = dc.natAbs ∧ dr ≠ 0
    | .R => (dr = 0 ∧ dc ≠ 0) ∨ (dc = 0 ∧ dr ≠ 0)
    | .Q => (dr.natAbs = dc.natAbs ∧ dr ≠ 0) ∨
            (dr = 0 ∧ dc ≠ 0) ∨ (dc = 0 ∧ dr ≠ 0)
    | .K => max dr.natAbs dc.natAbs = 1
    | .P =>
        let fwd : Int := if c = Color.w then -1 else 1
        (dc = 0 ∧ (dr = fwd ∨ dr = 2 * fwd)) ∨ (dc.natAbs = 1 ∧ dr = fwd)

/-- A board holding a single black knight, used to exhibit an AI move
that violates every movement shape. -/
def knightBoard : BoardState :=
  [[some (.b, .N), none, none, none, none, none, none, none],
   [none, none, none, none, none, none, none, none],
   [none, none, none, none, none, none, none, none],
   [none, none, none, none, none, none, none, none],
   [none, none, none, none, none, none, none, none],
   [none, none, none, none, none, none, none, none],
   [none, none, none, none, none, none, none, none],
   [none, none, none, none, none, none, none, none]]

/-- The non-knight-shaped move the AI returns first on `knightBoard`:
the knight on a8 "moving" one square sideways. -/
def knightSlideMove : Move :=
  { fromSq := { row := 0, col := 0 }
    toSq := { row := 0, col := 1 }
    piece := some (.b, .N) }

/-- A sample white double pawn push (e2–e4 in grid coordinates). -/
def sampleMove : Move :=
  { fromSq := { row := 6, col := 4 }
    toSq := { row := 4, col := 4 }
    piece := some (.w, .P) }

/-- A sample black pawn move, illegal for White to submit. -/
def oppMove : Move :=
  { fromSq := { row := 1, col := 0 }
    toSq := { row := 2, col := 0 }
    piece := some (.b, .P) }

/-- The grid `App`'s initial component state (`App.tsx` lines 50–55). -/
def sampleState : AppState :=
  { mode := GameMode.local
    board := INITIAL_BOARD
    currentPlayer := Color.w
    selectedSquare := none
    statusMessage := "White to move." }

end ChessDemo

/-!
The second app variant of `App.tsx` (the "string" variant, lines
200–872): the board is a placeholder FEN-like string, the game state
carries a turn and a status, moves are algebraic strings, and the
multiplayer lobby issues direct database writes.
-/

namespace ChessDemo

namespace StringApp

/-- `type AIDifficulty = 'Beginner' | 'Easy' | 'Hard' | 'Master'` —
the same four values as the grid variant's `Difficulty`. -/
abbrev AIDifficulty := Difficulty

/-- `type GameMode` of the string variant:
`'LOCAL_2P' | 'AI' | 'MULTIPLAYER' | 'IDLE'`. -/
inductive GameMode where
  | LOCAL_2P
  | AI
  | MULTIPLAYER
  | IDLE
deriving DecidableEq, Repr

/-- The `GameState.status` field:
`'playing' | 'checkmate' | 'stalemate' | 'draw'`. -/
inductive Status where
  | playing
  | checkmate
  | stalemate
  | draw
deriving DecidableEq, Repr

/-- The `GameState` interface (board string, turn, status). -/
structure GameState where
  board : String
  turn : Color
  status : Status
deriving DecidableEq, Repr

/-- `INITIAL_BOARD_STATE` (`App.tsx` line 227). -/
def INITIAL_BOARD_STATE : String :=
  "rnbqkbnr/pppppppp/8/8/8/8/PPPPPPPP/RNBQKBNR w KQkq - 0 1"

/-- The only other board string ever produced, the `'b KQkq'` flip
hard-coded inside `mockApplyMove` (`App.tsx` line 258). -/
def FLIPPED_BOARD_STATE : String :=
  "rnbqkbnr/pppppppp/8/8/8/8/PPPPPPPP/RNBQKBNR b KQkq - 0 1"

/-- JS `s.includes(c)` for a single character: membership of the
character in the string. -/
def includesChar (s : String) (c : Char) : Bool :=
  s.data.contains c

/-- `mockGetLegalMoves` (`App.tsx` lines 245–250). -/
def mockGetLegalMoves (board : String) (turn : Color) : List String :=
  if includesChar board 'P' ∧ turn = Color.w then ["e2e3", "e2e4"]
  else if includesChar board 'p' ∧ turn = Color.b then ["e7e6", "e7e5"]
  else []

/-- `mockApplyMove` (`App.tsx` lines 253–265): the `move` argument is
never inspected, the turn flips on whether the board string contains
`'w'`, the board becomes one of two fixed strings, and the status is
always `'playing'`. -/
def mockApplyMove (board : String) (move : String) : GameState :=
  let newTurn : Color := if includesChar board 'w' then Color.b else Color.w
  let newBoard : String :=
    if includesChar board 'w' then FLIPPED_BOARD_STATE else INITIAL_BOARD_STATE
  { board := newBoard, turn := newTurn, status := Status.playing }

/-- `getAIMove` (`App.tsx` lines 268–291) stripped of its timer: the
`Math.floor(Math.random() * legalMoves.length)` draw is modelled by the
index `k % legalMoves.length` for an arbitrary `k`, which ranges over
exactly the indices the draw can produce; the empty string models the
`''` resolution when no legal move exists.  The difficulty only sets
the (unmodelled) thinking delay. -/
def getAIMove (difficulty : AIDifficulty) (boardState : GameState) (k : Nat) :
    String :=
  let legalMoves := mockGetLegalMoves boardState.board boardState.turn
  if legalMoves.length > 0 then legalMoves.getD (k % legalMoves.length) ""
  else ""

/-- The literal `'SimulatedFrom'` source label the AI-turn effect hands
to `handleMoveAttempt` (`App.tsx` line 768). -/
def simulatedFromLabel : String := "SimulatedFrom"

/-- `handleMoveAttempt` (`App.tsx` lines 714–758) as a state
transformer.  `hasGameId` models `gameId` being non-null; `k` feeds the
AI's random draw in the AI-mode branch.  The early `return` when it is
not the caller's turn outside `LOCAL_2P`, the three mode branches, and
the nested AI reply (`getAIMove` then a second `mockApplyMove`) follow
the source. -/
def handleMoveAttempt (mode : GameMode) (playerColor : Color)
    (difficulty : Option AIDifficulty) (hasGameId : Bool)
    (gs : GameState) (fromSq toSq : String) (k : Nat) : GameState :=
  if gs.turn ≠ playerColor ∧ mode ≠ GameMode.LOCAL_2P then gs
  else
    let moveNotation := fromSq ++ "-" ++ toSq
    if mode = GameMode.LOCAL_2P then
      mockApplyMove gs.board moveNotation
    else if mode = GameMode.AI ∧ gs.turn = playerColor then
      let result := mockApplyMove gs.board moveNotation
      if result.turn = Color.b then
        let aiMove := getAIMove (difficulty.getD Difficulty.Beginner)
          { board := result.board, turn := Color.b, status := Status.playing } k
        if aiMove ≠ "" then mockApplyMove result.board aiMove else result
      else result
    else if mode = GameMode.MULTIPLAYER ∧ hasGameId then
      mockApplyMove gs.board moveNotation
    else gs

/-- The AI-turn `useEffect` (`App.tsx` lines 761–776) as a state
transformer: when in AI mode with Black to move and a difficulty set,
draw an AI move; a non-empty move is fed back through
`handleMoveAttempt` (with the `'SimulatedFrom'` label, and a fresh draw
`k₂` for its inner AI branch), an empty one sets status `'stalemate'`.
The source reads `difficulty!` inside the guard, so `Option.getD` with
any default is faithful (the guard ensures `isSome`). -/
def aiTurnEffect (mode : GameMode) (playerColor : Color)
    (difficulty : Option AIDifficulty) (hasGameId : Bool)
    (gs : GameState) (k k₂ : Nat) : GameState :=
  if mode = GameMode.AI ∧ gs.turn = Color.b ∧ difficulty.isSome then
    let aiMove := getAIMove (difficulty.getD Difficulty.Beginner) gs k
    if aiMove ≠ "" then
      handleMoveAttempt mode playerColor difficulty hasGameId gs
        simulatedFromLabel aiMove k₂
    else { gs with status := Status.stalemate }
  else gs

/-- The initial `useState` game state (`App.tsx` lines 694–698). -/
def initialGameState : GameState :=
  { board := INITIAL_BOARD_STATE, turn := Color.w, status := Status.playing }

/-- States reachable from the initial state through any interleaving of
`handleMoveAttempt` calls (any mode, player color, difficulty, game id,
move strings and random draws) and AI-turn-effect steps. -/
inductive Reach : GameState → Prop where
  | init : Reach initialGameState
  | move (gs : GameState) (mode : GameMode) (pc : Color)
      (diff : Option AIDifficulty) (hid : Bool) (f t : String) (k : Nat) :
      Reach gs → Reach (handleMoveAttempt mode pc diff hid gs f t k)
  | ai (gs : GameState) (mode : GameMode) (pc : Color)
      (diff : Option AIDifficulty) (hid : Bool) (k k₂ : Nat) :
      Reach gs → Reach (aiTurnEffect mode pc diff hid gs k k₂)

/-- `LobbyGame.status`: `'waiting' | 'playing'`. -/
inductive LobbyStatus where
  | waiting
  | playing
deriving DecidableEq, Repr

/-- The `LobbyGame` interface (`App.tsx` lines 216–222). -/
structure LobbyGame where
  id : String
  status : LobbyStatus
  player_w : String
  player_b : Option String
  created_at : String
deriving DecidableEq, Repr

/-- `MOCK_USER_ID` from `src/src/lib/supabaseClient.ts`. -/
def MOCK_USER_ID : String := "user-12345"

/-- One `supabase.from('games').update({...}).eq('id', ...)` call:
the payload fields written and the row filter. -/
structure GamesUpdate where
  player_b : String
  status : LobbyStatus
  eq_id : String
deriving DecidableEq, Repr

/-- `joinGame` (`App.tsx` lines 613–629) viewed through the database
writes it issues: an early return for `'w'`, otherwise a single
unconditional update setting `player_b` and `status` on the row with
the game's id (no read, lock or conflict check precedes it). -/
def joinGame (game : LobbyGame) (playerColor : Color) : List GamesUpdate :=
  if playerColor = Color.w then []
  else [{ player_b := MOCK_USER_ID, status := LobbyStatus.playing,
          eq_id := game.id }]

end StringApp

end ChessDemo

namespace ChessDemo

/-- Claim C4 — the AI's chosen move is independent of the difficulty
setting: for every board and fixed random draw, `generateAIMove` returns
the same value for all difficulties (the `complexityFactor` has no
effect on the enumeration or on the selected index). -/
theorem generateAIMove_difficulty_independent (board : BoardState)
    (d₁ d₂ : Difficulty) (r : ℚ) :
    generateAIMove board d₁ r = generateAIMove board d₂ r := by
  cases d₁ <;> cases d₂ <;> rfl

/-- Claim C8 — `joinGame` performs an unconditional, unvalidated write:
joining as Black issues exactly one update setting `player_b` to
`MOCK_USER_ID` and `status` to `'playing'` on the row with the game's
id, whatever the game's current status or `player_b` value; joining as
White issues no write at all. -/
theorem joinGame_unconditional_write (g : StringApp.LobbyGame) :
    StringApp.joinGame g Color.b =
      [{ player_b := StringApp.MOCK_USER_ID,
         status := StringApp.LobbyStatus.playing, eq_id := g.id }] ∧
    StringApp.joinGame g Color.w = [] :=
  ⟨rfl, rfl⟩

namespace StringApp

/-- `mockGetLegalMoves` on either reachable board string returns one of
the two fixed nonempty move lists (both strings contain `'P'` and
`'p'`). -/
lemma mockGetLegalMoves_reachable (board : String) (turn : Color)
    (hb : board = INITIAL_BOARD_STATE ∨ board = FLIPPED_BOARD_STATE) :
    mockGetLegalMoves board turn = ["e2e3", "e2e4"] ∨
    mockGetLegalMoves board turn = ["e7e6", "e7e5"] := by
  rcases hb with hb | hb <;> subst hb <;> cases turn
  · left; decide
  · right; decide
  · left; decide
  · right; decide

/-- On a reachable board string the AI draw never resolves to the empty
string (the stalemate signal). -/
lemma getAIMove_ne_empty (d : AIDifficulty) (gs : GameState) (k : Nat)
    (hb : gs.board = INITIAL_BOARD_STATE ∨ gs.board = FLIPPED_BOARD_STATE) :
    getAIMove d gs k ≠ "" := by
  unfold getAIMove
  have h2 : k % 2 = 0 ∨ k % 2 = 1 := by omega
  rcases mockGetLegalMoves_reachable gs.board gs.turn hb with h | h <;>
    rw [h] <;> rcases h2 with h2 | h2 <;> simp [h2, List.getD]

/-- `mockApplyMove` always lands in the invariant: status `'playing'`
and one of the two fixed board strings. -/
lemma mockApplyMove_inv (b m : String) :
    (mockApplyMove b m).status = Status.playing ∧
    ((mockApplyMove b m).board = INITIAL_BOARD_STATE ∨
     (mockApplyMove b m).board = FLIPPED_BOARD_STATE) := by
  unfold mockApplyMove
  by_cases h : includesChar b 'w' = true <;> simp [h]

/-- `handleMoveAttempt` preserves the invariant. -/
lemma handleMoveAttempt_inv (mode : GameMode) (pc : Color)
    (diff : Option AIDifficulty) (hid : Bool) (gs : GameState)
    (f t : String) (k : Nat)
    (hgs : gs.status = Status.playing ∧
      (gs.board = INITIAL_BOARD_STATE ∨ gs.board = FLIPPED_BOARD_STATE)) :
    (handleMoveAttempt mode pc diff hid gs f t k).status = Status.playing ∧
    ((handleMoveAttempt mode pc diff hid gs f t k).board = INITIAL_BOARD_STATE ∨
     (handleMoveAttempt mode pc diff hid gs f t k).board = FLIPPED_BOARD_STATE) := by
  unfold handleMoveAttempt
  dsimp only
  split_ifs <;> first | exact hgs | apply mockApplyMove_inv

/-- The AI-turn effect preserves the invariant: on a reachable board
the AI move is never empty, so the stalemate branch is dead. -/
lemma aiTurnEffect_inv (mode : GameMode) (pc : Color)
    (diff : Option AIDifficulty) (hid : Bool) (gs : GameState) (k k₂ : Nat)
    (hgs : gs.status = Status.playing ∧
      (gs.board = INITIAL_BOARD_STATE ∨ gs.board = FLIPPED_BOARD_STATE)) :
    (aiTurnEffect mode pc diff hid gs k k₂).status = Status.playing ∧
    ((aiTurnEffect mode pc diff hid gs k k₂).board = INITIAL_BOARD_STATE ∨
     (aiTurnEffect mode pc diff hid gs k k₂).board = FLIPPED_BOARD_STATE) := by
  unfold aiTurnEffect
  dsimp only
  split_ifs with h1 h2
  · exact handleMoveAttempt_inv mode pc diff hid gs simulatedFromLabel _ k₂ hgs
  · exact absurd (not_not.mp h2)
      (getAIMove_ne_empty (diff.getD Difficulty.Beginner) gs k hgs.2)
  · exact hgs

/-- Every reachable state of the string variant satisfies the
invariant: status `'playing'` and one of the two placeholder boards. -/
lemma reach_inv (gs : GameState) (h : Reach gs) :
    gs.status = Status.playing ∧
    (gs.board = INITIAL_BOARD_STATE ∨ gs.board = FLIPPED_BOARD_STATE) := by
  induction h with
  | init => exact ⟨rfl, Or.inl rfl⟩
  | move gs mode pc diff hid f t k _ ih =>
      exact handleMoveAttempt_inv mode pc diff hid gs f t k ih
  | ai gs mode pc diff hid k k₂ _ ih =>
      exact aiTurnEffect_inv mode pc diff hid gs k k₂ ih

end StringApp

/-- Claim C6 — in the string-board app variant the game never ends:
every state reachable from the initial game state through any sequence
of `handleMoveAttempt` calls and AI-turn-effect steps still has status
`'playing'` (so `'checkmate'`, `'stalemate'` and `'draw'` are never
reached). -/
theorem stringApp_game_never_ends (gs : StringApp.GameState)
    (h : StringApp.Reach gs) : gs.status = StringApp.Status.playing :=
  (StringApp.reach_inv gs h).1

/-- Witness for C6: the initial state is reachable and has status
`'playing'`. -/
theorem stringApp_game_never_ends_witness :
    StringApp.initialGameState.status = StringApp.Status.playing :=
  stringApp_game_never_ends StringApp.initialGameState StringApp.Reach.init

/-- `List.getD` after `List.set` at the same in-range index. -/
lemma getD_set_self {α : Type _} (l : List α) (i : Nat) (a d : α)
    (h : i < l.length) : (l.set i a).getD i d = a := by
  simp [List.getD, List.getElem?_set_self', List.getElem?_eq_getElem h]

/-- `List.getD` after `List.set` at a different index. -/
lemma getD_set_ne {α : Type _} (l : List α) (i j : Nat) (a d : α)
    (h : i ≠ j) : (l.set i a).getD j d = l.getD j d := by
  simp [List.getD, List.getElem?_set_ne h]

/-- An in-range `List.getD` read is a member of the list. -/
lemma getD_mem {α : Type _} (l : List α) (i : Nat) (d : α)
    (h : i < l.length) : l.getD i d ∈ l := by
  rw [List.getD_eq_getElem l d h]
  exact l.getElem_mem h

/-- Reading a square after writing one, on an 8×8 board with the write
in range: the written value at the written square, the old board
elsewhere. -/
lemma getSquare_setSquare (b : BoardState) (r c r' c' : Nat) (p : Piece)
    (h8 : is8x8 b) (hr : r < 8) (hc : c < 8) :
    getSquare (setSquare b r c p) r' c' =
      if r' = r ∧ c' = c then p else getSquare b r' c' := by
  have hrb : r < b.length := h8.1 ▸ hr
  have hrow : (b.getD r []).length = 8 := h8.2 _ (getD_mem b r [] hrb)
  unfold getSquare setSquare
  by_cases hrr : r' = r
  · subst hrr
    rw [getD_set_self _ _ _ _ hrb]
    by_cases hcc : c' = c
    · subst hcc
      rw [getD_set_self _ _ _ _ (hrow ▸ hc)]
      simp
    · rw [getD_set_ne _ _ _ _ _ (fun he => hcc he.symm)]
      simp [hcc]
  · rw [getD_set_ne _ _ _ _ _ (fun he => hrr he.symm)]
    simp [hrr]

/-- Writing one square of an 8×8 board at an in-range row keeps the
board 8×8. -/
lemma is8x8_setSquare (b : BoardState) (r c : Nat) (p : Piece)
    (h8 : is8x8 b) (hr : r < 8) : is8x8 (setSquare b r c p) := by
  refine ⟨by simp [setSquare, h8.1], ?_⟩
  intro row hrow
  rcases List.mem_or_eq_of_mem_set hrow with h | h
  · exact h8.2 row h
  · subst h
    rw [List.length_set]
    exact h8.2 _ (getD_mem b r [] (h8.1 ▸ hr))

/-- Claim C5 — `executeMove` is a plain single-piece relocation: on an
8×8 board, for any in-range move whose source differs from its
destination, the new board holds `move.piece` at the destination,
`null` at the source, and every other square of the grid unchanged (no
promotion, no second piece moved, no third square cleared). -/
theorem executeMove_single_relocation (b : BoardState) (m : Move)
    (h8 : is8x8 b) (hfr : m.fromSq.row < 8) (hfc : m.fromSq.col < 8)
    (htr : m.toSq.row < 8) (htc : m.toSq.col < 8) (hne : m.fromSq ≠ m.toSq) :
    getSquare (executeMove b m) m.toSq.row m.toSq.col = m.piece ∧
    getSquare (executeMove b m) m.fromSq.row m.fromSq.col = none ∧
    ∀ r c : Nat, ¬(r = m.fromSq.row ∧ c = m.fromSq.col) →
      ¬(r = m.toSq.row ∧ c = m.toSq.col) →
      getSquare (executeMove b m) r c = getSquare b r c := by
  obtain ⟨⟨fr, fc⟩, ⟨tr, tc⟩, p⟩ := m
  simp only at hfr hfc htr htc ⊢
  have h8' : is8x8 (setSquare b tr tc p) := is8x8_setSquare _ _ _ _ h8 htr
  unfold executeMove
  simp only
  refine ⟨?_, ?_, ?_⟩
  · rw [getSquare_setSquare _ _ _ _ _ _ h8' hfr hfc]
    have hcond : ¬(tr = fr ∧ tc = fc) := by
      rintro ⟨h1, h2⟩
      exact hne (by simp [h1, h2])
    rw [if_neg hcond, getSquare_setSquare _ _ _ _ _ _ h8 htr htc,
      if_pos ⟨rfl, rfl⟩]
  · rw [getSquare_setSquare _ _ _ _ _ _ h8' hfr hfc, if_pos ⟨rfl, rfl⟩]
  · intro r c hf ht
    rw [getSquare_setSquare _ _ _ _ _ _ h8' hfr hfc, if_neg hf,
      getSquare_setSquare _ _ _ _ _ _ h8 htr htc, if_neg ht]

/-- Witness for C5: moving the white e-pawn two squares up on the
initial board puts it on e4, empties e2, and leaves a8 alone. -/
theorem executeMove_single_relocation_witness :
    getSquare (executeMove INITIAL_BOARD sampleMove) 4 4 =
      some (Color.w, PieceType.P) ∧
    getSquare (executeMove INITIAL_BOARD sampleMove) 6 4 = none ∧
    getSquare (executeMove INITIAL_BOARD sampleMove) 0 0 =
      getSquare INITIAL_BOARD 0 0 :=
  have h := executeMove_single_relocation INITIAL_BOARD sampleMove
    (by decide) (by decide) (by decide) (by decide) (by decide) (by decide)
  ⟨h.1, h.2.1, h.2.2 0 0 (by decide) (by decide)⟩

/-- Claim C7 — the grid variant's boards stay 8×8 grids of nullable
piece tags: `INITIAL_BOARD` is 8×8 (its entries are `Piece`-typed by
construction), `executeMove` with in-range coordinates maps 8×8 boards
to 8×8 boards, and hence every reachable board is 8×8. -/
theorem boards_stay_8x8 :
    is8x8 INITIAL_BOARD ∧
    (∀ (b : BoardState) (m : Move), is8x8 b →
      m.fromSq.row < 8 → m.fromSq.col < 8 → m.toSq.row < 8 → m.toSq.col < 8 →
      is8x8 (executeMove b m)) ∧
    ∀ b : BoardState, ReachableBoard b → is8x8 b := by
  have hexec : ∀ (b : BoardState) (m : Move), is8x8 b →
      m.fromSq.row < 8 → m.fromSq.col < 8 → m.toSq.row < 8 → m.toSq.col < 8 →
      is8x8 (executeMove b m) := by
    intro b m h8 hfr _ htr _
    exact is8x8_setSquare _ _ _ _ (is8x8_setSquare _ _ _ _ h8 htr) hfr
  refine ⟨by decide, hexec, ?_⟩
  intro b hb
  induction hb with
  | init => decide
  | step b m h1 h2 h3 h4 _ ih => exact hexec b m ih h1 h2 h3 h4

/-- Witness for C7: the initial board is reachable and 8×8. -/
theorem boards_stay_8x8_witness : is8x8 INITIAL_BOARD :=
  boards_stay_8x8.2.2 INITIAL_BOARD ReachableBoard.init

/-- Counterexample to C2 as stated: with a `null` piece argument, a
source square c6, an empty target square c5 and White to move, the
target neither equals the source nor holds a white piece, yet
`isValidMovePlaceholder` returns `false` (its first guard also rejects
pieces that are null or not the mover's, which the claim omits). -/
theorem isValidMove_claim_counterexample :
    isValidMovePlaceholder INITIAL_BOARD ⟨2, 0⟩ ⟨3, 0⟩ none Color.w = false ∧
    ¬((Coord.mk 3 0).row = (Coord.mk 2 0).row ∧
      (Coord.mk 3 0).col = (Coord.mk 2 0).col) ∧
    ¬getPieceColor (getSquare INITIAL_BOARD 3 0) = some Color.w := by
  decide

/-- Claim C2 (amended) — `isValidMovePlaceholder` returns `false`
exactly when the piece argument is null or its color is not the current
player's, or the target equals the source, or the piece on the target
square has the current player's color; it returns `true` for every
other move. -/
theorem isValidMovePlaceholder_characterization (board : BoardState)
    (fromSq toSq : Coord) (piece : Piece) (currentPlayer : Color) :
    isValidMovePlaceholder board fromSq toSq piece currentPlayer = false ↔
      (piece = none ∨ getPieceColor piece ≠ some currentPlayer ∨
       (toSq.row = fromSq.row ∧ toSq.col = fromSq.col) ∨
       getPieceColor (getSquare board toSq.row toSq.col) = some currentPlayer) := by
  unfold isValidMovePlaceholder
  split_ifs with h1 h2 h3 <;> simp_all <;> tauto

/-- Claim C10 — `handleHumanMove` rejects atomically and validates
nothing further: a move whose piece is null or not the current
player's only sets the error status message, leaving board, player and
selection unchanged; a move whose piece color matches the current
player is passed straight to `executeMove` (via the state-level
`executeMoveApp`) with no shape, occupancy or check validation. -/
theorem handleHumanMove_validation (st : AppState) (move : Move) :
    ((move.piece = none ∨ getPieceColor move.piece ≠ some st.currentPlayer) →
      (handleHumanMove st move).statusMessage = errorOpponentPiece ∧
      (handleHumanMove st move).board = st.board ∧
      (handleHumanMove st move).currentPlayer = st.currentPlayer ∧
      (handleHumanMove st move).selectedSquare = st.selectedSquare) ∧
    (getPieceColor move.piece = some st.currentPlayer →
      handleHumanMove st move = executeMoveApp st move st.currentPlayer) := by
  unfold handleHumanMove
  constructor
  · intro h
    have hne : getPieceColor move.piece ≠ some st.currentPlayer := by
      rcases h with h | h
      · rw [h]; simp [getPieceColor]
      · exact h
    simp [hne]
  · intro h
    simp [h]

/-- Witness for C10: on the initial state, submitting a black pawn move
as White leaves the board unchanged, and submitting the white e-pawn
push runs `executeMoveApp`. -/
theorem handleHumanMove_validation_witness :
    (handleHumanMove sampleState oppMove).board = sampleState.board ∧
    handleHumanMove sampleState sampleMove =
      executeMoveApp sampleState sampleMove Color.w :=
  ⟨((handleHumanMove_validation sampleState oppMove).1 (by decide)).2.1,
   (handleHumanMove_validation sampleState sampleMove).2 (by decide)⟩

/-- Membership in the inner target enumeration of a fixed source
square. -/
lemma mem_movesFrom (board : BoardState) (r c : Nat) (m : Move) :
    m ∈ movesFrom board r c ↔
      ∃ tr tc, tr < 8 ∧ tc < 8 ∧ (r ≠ tr ∨ c ≠ tc) ∧
        getPieceColor (getSquare board tr tc) ≠ some Color.b ∧
        m = ⟨⟨r, c⟩, ⟨tr, tc⟩, getSquare board r c⟩ := by
  unfold movesFrom
  simp only [List.mem_flatMap, List.mem_range]
  constructor
  · rintro ⟨tr, htr, tc, htc, hm⟩
    split_ifs at hm with hcond
    · simp only [List.mem_singleton] at hm
      exact ⟨tr, tc, htr, htc, hcond.1, hcond.2, hm⟩
    · simp at hm
  · rintro ⟨tr, tc, htr, htc, h1, h2, rfl⟩
    refine ⟨tr, htr, tc, htc, ?_⟩
    rw [if_pos ⟨h1, h2⟩]
    simp

/-- Membership in the AI's full move enumeration. -/
lemma mem_generateAIMoveList (board : BoardState) (m : Move) :
    m ∈ generateAIMoveList board ↔
      ∃ r c tr tc, r < 8 ∧ c < 8 ∧ tr < 8 ∧ tc < 8 ∧
        getPieceColor (getSquare board r c) = some Color.b ∧
        (r ≠ tr ∨ c ≠ tc) ∧
        getPieceColor (getSquare board tr tc) ≠ some Color.b ∧
        m = ⟨⟨r, c⟩, ⟨tr, tc⟩, getSquare board r c⟩ := by
  unfold generateAIMoveList
  simp only [List.mem_flatMap, List.mem_range]
  constructor
  · rintro ⟨r, hr, c, hc, hm⟩
    split_ifs at hm with hcol
    · rcases (mem_movesFrom board r c m).1 hm with
        ⟨tr, tc, htr, htc, h1, h2, hmeq⟩
      exact ⟨r, c, tr, tc, hr, hc, htr, htc, hcol, h1, h2, hmeq⟩
    · simp at hm
  · rintro ⟨r, c, tr, tc, hr, hc, htr, htc, hcol, h1, h2, rfl⟩
    refine ⟨r, hr, c, hc, ?_⟩
    rw [if_pos hcol]
    exact (mem_movesFrom board r c _).2 ⟨tr, tc, htr, htc, h1, h2, rfl⟩

/-- Every move enumerated from source `(r, c)` has its key in that
source's 64-wide bucket. -/
lemma movesFrom_key_bound (board : BoardState) (r c : Nat) (a : Move)
    (h : a ∈ movesFrom board r c) :
    (r * 8 + c) * 64 ≤ moveKey a ∧ moveKey a < (r * 8 + c) * 64 + 64 := by
  rcases (mem_movesFrom board r c a).1 h with ⟨tr, tc, htr, htc, _, _, rfl⟩
  unfold moveKey
  simp only
  omega

/-- A flatMap over `List.range` is strictly sorted by a key when each
bucket is and buckets are pairwise ordered. -/
lemma pairwise_key_flatMap {α : Type _} (key : α → Nat) (f : Nat → List α)
    (n : Nat)
    (h1 : ∀ i, i < n → (f i).Pairwise fun a b => key a < key b)
    (h2 : ∀ i j, i < j → j < n → ∀ a ∈ f i, ∀ b ∈ f j, key a < key b) :
    ((List.range n).flatMap f).Pairwise fun a b => key a < key b := by
  induction n with
  | zero => simp
  | succ n ih =>
      rw [List.range_succ, List.flatMap_append, List.pairwise_append]
      refine ⟨ih (fun i hi => h1 i (Nat.lt_succ_of_lt hi))
        (fun i j hij hj => h2 i j hij (Nat.lt_succ_of_lt hj)), ?_, ?_⟩
      · simpa using h1 n (Nat.lt_succ_self n)
      · intro a ha b hb
        rw [List.mem_flatMap] at ha
        rcases ha with ⟨i, hi, hai⟩
        rw [List.mem_range] at hi
        simp only [List.flatMap_cons, List.flatMap_nil, List.append_nil] at hb
        exact h2 i n hi (Nat.lt_succ_self n) a hai b hb

/-- The target enumeration of one source square is strictly increasing
in the row-major key. -/
lemma pairwise_movesFrom (board : BoardState) (r c : Nat) :
    (movesFrom board r c).Pairwise fun a b => moveKey a < moveKey b := by
  unfold movesFrom
  apply pairwise_key_flatMap
  · intro tr htr
    apply pairwise_key_flatMap
    · intro tc htc
      split_ifs <;> simp
    · intro i j hij hj a ha b hb
      split_ifs at ha with h1
      · split_ifs at hb with h2
        · simp only [List.mem_singleton] at ha hb
          subst ha
          subst hb
          unfold moveKey
          simp only
          omega
        · simp at hb
      · simp at ha
  · intro i j hij hj a ha b hb
    rw [List.mem_flatMap] at ha hb
    rcases ha with ⟨ta, hta, ha⟩
    rcases hb with ⟨tb, htb, hb⟩
    rw [List.mem_range] at hta htb
    split_ifs at ha with h1
    · split_ifs at hb with h2
      · simp only [List.mem_singleton] at ha hb
        subst ha
        subst hb
        unfold moveKey
        simp only
        omega
      · simp at hb
    · simp at ha

/-- The AI's full enumeration is strictly increasing in the row-major
key: source squares in row-major order, then targets. -/
lemma pairwise_generateAIMoveList (board : BoardState) :
    (generateAIMoveList board).Pairwise fun a b => moveKey a < moveKey b := by
  unfold generateAIMoveList
  apply pairwise_key_flatMap
  · intro r hr
    apply pairwise_key_flatMap
    · intro c hc
      split_ifs
      · exact pairwise_movesFrom board r c
      · simp
    · intro i j hij hj a ha b hb
      split_ifs at ha with h1
      · split_ifs at hb with h2
        · rcases movesFrom_key_bound board r i a ha with ⟨ha1, ha2⟩
          rcases movesFrom_key_bound board r j b hb with ⟨hb1, hb2⟩
          omega
        · simp at hb
      · simp at ha
  · intro i j hij hj a ha b hb
    rw [List.mem_flatMap] at ha hb
    rcases ha with ⟨ca, hca, ha⟩
    rcases hb with ⟨cb, hcb, hb⟩
    rw [List.mem_range] at hca hcb
    split_ifs at ha with h1
    · split_ifs at hb with h2
      · rcases movesFrom_key_bound board i ca a ha with ⟨ha1, ha2⟩
        rcases movesFrom_key_bound board j cb b hb with ⟨hb1, hb2⟩
        omega
      · simp at hb
    · simp at ha

/-- The selected index `⌊r * n⌋` is in range for `r ∈ [0, 1)`. -/
lemma floor_index_lt (n : Nat) (r : ℚ) (hn : 0 < n) (hr0 : 0 ≤ r)
    (hr1 : r < 1) : (⌊r * (n : ℚ)⌋).toNat < n := by
  have hnQ : (0 : ℚ) < (n : ℚ) := by exact_mod_cast hn
  have h1 : r * (n : ℚ) < (n : ℚ) := by
    calc r * (n : ℚ) < 1 * (n : ℚ) := mul_lt_mul_of_pos_right hr1 hnQ
    _ = (n : ℚ) := one_mul _
  have h2 : ⌊r * (n : ℚ)⌋ < (n : ℤ) := Int.floor_lt.2 (by exact_mod_cast h1)
  omega

/-- `⌊r * n⌋ = i` exactly on the half-open interval
`[i / n, (i + 1) / n)` — the equal-length selection intervals. -/
lemma floor_index_interval (n i : Nat) (r : ℚ) (hn : 0 < n) (hr0 : 0 ≤ r) :
    (⌊r * (n : ℚ)⌋).toNat = i ↔
      (i : ℚ) / (n : ℚ) ≤ r ∧ r < ((i : ℚ) + 1) / (n : ℚ) := by
  have hnQ : (0 : ℚ) < (n : ℚ) := by exact_mod_cast hn
  have hfl0 : 0 ≤ ⌊r * (n : ℚ)⌋ :=
    Int.floor_nonneg.2 (mul_nonneg hr0 (le_of_lt hnQ))
  have htn : (⌊r * (n : ℚ)⌋).toNat = i ↔ ⌊r * (n : ℚ)⌋ = (i : ℤ) := by omega
  rw [htn, Int.floor_eq_iff]
  constructor
  · rintro ⟨h1, h2⟩
    constructor
    · rw [div_le_iff hnQ]
      exact_mod_cast h1
    · rw [lt_div_iff hnQ]
      exact_mod_cast h2
  · rintro ⟨h1, h2⟩
    constructor
    · rw [div_le_iff hnQ] at h1
      exact_mod_cast h1
    · rw [lt_div_iff hnQ] at h2
      exact_mod_cast h2

/-- `generateAIMove` always equals the `⌊r·n⌋`-th entry lookup of its
enumeration (out-of-range lookup and the empty-enumeration guard both
give `none`). -/
lemma generateAIMove_eq_get (board : BoardState) (d : Difficulty) (r : ℚ) :
    generateAIMove board d r =
      (generateAIMoveList board).get?
        (⌊r * ((generateAIMoveList board).length : ℚ)⌋).toNat := by
  unfold generateAIMove
  dsimp only
  split_ifs with h
  · rw [List.length_eq_zero.1 h]
    simp
  · rfl

/-- Claim C1 — `generateAIMove` enumerates exactly the moves from a
black-occupied source to a distinct non-black target, in strictly
increasing row-major order (source then target); it returns `null`
exactly when this enumeration is empty, otherwise the entry at index
`⌊r · n⌋`, and the index equals `i` exactly for `r` in the equal-length
interval `[i/n, (i+1)/n)` — uniform selection. -/
theorem generateAIMove_uniform_enumeration (board : BoardState)
    (d : Difficulty) (r : ℚ) (hr0 : 0 ≤ r) (hr1 : r < 1) :
    (∀ m : Move, m ∈ generateAIMoveList board ↔
      (m.fromSq.row < 8 ∧ m.fromSq.col < 8 ∧ m.toSq.row < 8 ∧
       m.toSq.col < 8 ∧
       getPieceColor (getSquare board m.fromSq.row m.fromSq.col) =
         some Color.b ∧
       (m.fromSq.row ≠ m.toSq.row ∨ m.fromSq.col ≠ m.toSq.col) ∧
       getPieceColor (getSquare board m.toSq.row m.toSq.col) ≠
         some Color.b ∧
       m.piece = getSquare board m.fromSq.row m.fromSq.col)) ∧
    (generateAIMoveList board).Pairwise
      (fun a b => moveKey a < moveKey b) ∧
    (generateAIMove board d r = none ↔ generateAIMoveList board = []) ∧
    generateAIMove board d r =
      (generateAIMoveList board).get?
        (⌊r * ((generateAIMoveList board).length : ℚ)⌋).toNat ∧
    ∀ i : Nat, i < (generateAIMoveList board).length →
      ((⌊r * ((generateAIMoveList board).length : ℚ)⌋).toNat = i ↔
        (i : ℚ) / ((generateAIMoveList board).length : ℚ) ≤ r ∧
        r < ((i : ℚ) + 1) / ((generateAIMoveList board).length : ℚ)) := by
  refine ⟨?_, pairwise_generateAIMoveList board, ?_,
    generateAIMove_eq_get board d r, ?_⟩
  · intro m
    rw [mem_generateAIMoveList]
    constructor
    · rintro ⟨r', c', tr, tc, hr', hc', htr, htc, hcol, hne, hcol2, rfl⟩
      exact ⟨hr', hc', htr, htc, hcol, hne, hcol2, rfl⟩
    · rintro ⟨h1, h2, h3, h4, h5, h6, h7, h8⟩
      refine ⟨m.fromSq.row, m.fromSq.col, m.toSq.row, m.toSq.col,
        h1, h2, h3, h4, h5, h6, h7, ?_⟩
      cases m with
      | mk f t p =>
          cases f
          cases t
          simp only at h8 ⊢
          rw [h8]
  · rw [generateAIMove_eq_get board d r]
    constructor
    · intro h
      by_contra hne
      have hlen : 0 < (generateAIMoveList board).length :=
        List.length_pos.2 hne
      have hidx := floor_index_lt (generateAIMoveList board).length r
        hlen hr0 hr1
      rw [List.get?_eq_get hidx] at h
      exact Option.noConfusion h
    · intro h
      rw [h]
      simp
  · intro i hi
    exact floor_index_interval (generateAIMoveList board).length i r
      (by omega) hr0

/-- Witness for C1: on the initial board with the median draw, the AI
returns exactly the enumeration entry at index `⌊r · n⌋`, and it is not
`null` since the enumeration is nonempty. -/
theorem generateAIMove_uniform_enumeration_witness :
    (generateAIMove INITIAL_BOARD Difficulty.Easy (1 / 2) = none ↔
      generateAIMoveList INITIAL_BOARD = []) ∧
    generateAIMove INITIAL_BOARD Difficulty.Easy (1 / 2) =
      (generateAIMoveList INITIAL_BOARD).get?
        (⌊(1 / 2 : ℚ) *
          ((generateAIMoveList INITIAL_BOARD).length : ℚ)⌋).toNat :=
  have h := generateAIMove_uniform_enumeration INITIAL_BOARD Difficulty.Easy
    (1 / 2) (by norm_num) (by norm_num)
  ⟨h.2.2.1, h.2.2.2.1⟩

/-- At draw `0` on the knight board, the AI returns the first
enumerated move: the knight sliding one square sideways. -/
lemma generateAIMove_knightBoard :
    generateAIMove knightBoard Difficulty.Easy 0 = some knightSlideMove := by
  rw [generateAIMove_eq_get]
  simp only [zero_mul, Int.floor_zero, Int.toNat_zero]
  decide

/-- Counterexample to C3 as stated: on a board holding a single black
knight on a8 and a random draw of `0`, the AI returns the knight
"moving" one square sideways — a move matching no piece's movement
shape (not a knight jump). -/
theorem ai_move_violates_shape :
    generateAIMove knightBoard Difficulty.Easy 0 = some knightSlideMove ∧
    obeysMovementShape knightSlideMove = false := by
  constructor
  · exact generateAIMove_knightBoard
  · decide

/-- Claim C3 (amended) — what the AI's moves actually satisfy: every
returned move starts on a black-occupied in-range square, ends on a
distinct in-range square not occupied by a black piece, and carries the
source square's piece; piece movement shape is not enforced. -/
theorem generateAIMove_returns_enumerated (board : BoardState)
    (d : Difficulty) (r : ℚ) (m : Move)
    (h : generateAIMove board d r = some m) :
    getPieceColor (getSquare board m.fromSq.row m.fromSq.col) =
      some Color.b ∧
    (m.fromSq.row ≠ m.toSq.row ∨ m.fromSq.col ≠ m.toSq.col) ∧
    getPieceColor (getSquare board m.toSq.row m.toSq.col) ≠ some Color.b ∧
    m.piece = getSquare board m.fromSq.row m.fromSq.col ∧
    m.fromSq.row < 8 ∧ m.fromSq.col < 8 ∧ m.toSq.row < 8 ∧ m.toSq.col < 8 := by
  have hmem : m ∈ generateAIMoveList board := by
    rw [generateAIMove_eq_get board d r] at h
    exact List.get?_mem h
  rcases (mem_generateAIMoveList board m).1 hmem with
    ⟨r', c', tr, tc, hr', hc', htr, htc, hcol, hne, hcol2, rfl⟩
  exact ⟨hcol, hne, hcol2, rfl, hr', hc', htr, htc⟩

/-- Witness for C3's amended theorem: the knight-board move returned at
draw `0` satisfies all the listed enumeration properties. -/
theorem generateAIMove_returns_enumerated_witness :
    getPieceColor (getSquare knightBoard knightSlideMove.fromSq.row
      knightSlideMove.fromSq.col) = some Color.b ∧
    (knightSlideMove.fromSq.row ≠ knightSlideMove.toSq.row ∨
     knightSlideMove.fromSq.col ≠ knightSlideMove.toSq.col) ∧
    getPieceColor (getSquare knightBoard knightSlideMove.toSq.row
      knightSlideMove.toSq.col) ≠ some Color.b ∧
    knightSlideMove.piece = getSquare knightBoard knightSlideMove.fromSq.row
      knightSlideMove.fromSq.col ∧
    knightSlideMove.fromSq.row < 8 ∧ knightSlideMove.fromSq.col < 8 ∧
    knightSlideMove.toSq.row < 8 ∧ knightSlideMove.toSq.col < 8 :=
  generateAIMove_returns_enumerated knightBoard Difficulty.Easy 0
    knightSlideMove generateAIMove_knightBoard

/-- Claim C9 — `mockApplyMove` ignores its move argument entirely; its
result always has status `'playing'`, turn `'b'` exactly when the board
string contains `'w'` (else `'w'`), and a board equal to one of the two
fixed placeholder strings. -/
theorem mockApplyMove_ignores_move (b m₁ m₂ : String) :
    StringApp.mockApplyMove b m₁ = StringApp.mockApplyMove b m₂ ∧
    (StringApp.mockApplyMove b m₁).status = StringApp.Status.playing ∧
    (StringApp.mockApplyMove b m₁).turn =
      (if StringApp.includesChar b 'w' then Color.b else Color.w) ∧
    ((StringApp.mockApplyMove b m₁).board = StringApp.FLIPPED_BOARD_STATE ∨
     (StringApp.mockApplyMove b m₁).board = StringApp.INITIAL_BOARD_STATE) := by
  refine ⟨rfl, rfl, rfl, ?_⟩
  unfold StringApp.mockApplyMove
  by_cases h : StringApp.includesChar b 'w' = true <;> simp [h]

end ChessDemo
